import Mathlib

/-!
# AsyncEvent echo server (`src/async_event/async_event.cpp`)

A shallow embedding of the WSAEventSelect echo server: the two global
`std::map`s that form the registry, the admission routine `on_accept`, the
handlers `on_recv`, `on_write`, `on_close`, the dispatcher `handle_event`
and one iteration of `event_loop`.

The operating system is the environment.  Every value the program reads
from a Winsock call is an explicit input (an "oracle" record), and every
Winsock call the program issues is appended to a chronological trace kept
in the state, so that statements about what the program asks the OS to do
can be expressed.  Diagnostic output (`fprintf`) is not modelled.
-/

namespace AsyncEvent

/-! ## Platform types and constants (Winsock SDK) -/

/-- A Winsock socket descriptor (`UINT_PTR`). -/
abbrev SOCKET := Nat

/-- A Winsock event handle (`HANDLE`, a pointer value). -/
abbrev WSAEVENT := Nat

/-- The null pointer. -/
def NULL : WSAEVENT := 0

/-- Winsock: `#define WSA_INVALID_EVENT ((WSAEVENT)NULL)`. -/
def WSA_INVALID_EVENT : WSAEVENT := NULL

/-- Winsock: `#define SOCKET_ERROR (-1)`. -/
def SOCKET_ERROR : Int := -1

/-- Winsock: `#define WSA_MAXIMUM_WAIT_EVENTS (MAXIMUM_WAIT_OBJECTS)`, which is 64. -/
def WSA_MAXIMUM_WAIT_EVENTS : Nat := 64

/-- Winsock: `#define WSA_WAIT_FAILED ((DWORD)-1L)`. -/
def WSA_WAIT_FAILED : Nat := 0xFFFFFFFF

/-- Winsock: `#define WSA_WAIT_TIMEOUT (WAIT_TIMEOUT)`, which is 258. -/
def WSA_WAIT_TIMEOUT : Nat := 258

/-- Winsock: `#define WSA_WAIT_IO_COMPLETION (WAIT_IO_COMPLETION)`, which is 0xC0. -/
def WSA_WAIT_IO_COMPLETION : Nat := 0xC0

/-- Winsock: `#define WSA_WAIT_EVENT_0 (WAIT_OBJECT_0)`, which is 0. -/
def WSA_WAIT_EVENT_0 : Nat := 0

/-- Winsock: `#define FD_READ_BIT 0`. -/
def FD_READ_BIT : Nat := 0

/-- Winsock: `#define FD_READ (1 << FD_READ_BIT)`. -/
def FD_READ : Nat := 1

/-- Winsock: `#define FD_WRITE_BIT 1`. -/
def FD_WRITE_BIT : Nat := 1

/-- Winsock: `#define FD_WRITE (1 << FD_WRITE_BIT)`. -/
def FD_WRITE : Nat := 2

/-- Winsock: `#define FD_CLOSE_BIT 5`. -/
def FD_CLOSE_BIT : Nat := 5

/-- Winsock: `#define FD_CLOSE (1 << FD_CLOSE_BIT)`. -/
def FD_CLOSE : Nat := 32

/-! ## `std::map` with integer keys and values

A `std::map` keeps its entries ordered by strictly increasing key.  The
entries are stored as such a list; the ordering is part of the type, so
every value of `StdMap` is a well-formed map. -/

/-- Strictly increasing keys. -/
def KeysAscending (l : List (Nat × Nat)) : Prop :=
  l.Pairwise (fun a b => a.1 < b.1)

instance (l : List (Nat × Nat)) : Decidable (KeysAscending l) := by
  unfold KeysAscending; infer_instance

/-- Lookup of key `k` in an entry list (`std::map::find`). -/
def findEntry : List (Nat × Nat) → Nat → Option Nat
  | [], _ => none
  | (k', v) :: rest, k => if k' = k then some v else findEntry rest k

/-- Ordered insertion or overwrite at key `k` (`m[k] = v`). -/
def assignEntry : List (Nat × Nat) → Nat → Nat → List (Nat × Nat)
  | [], k, v => [(k, v)]
  | (k', v') :: rest, k, v =>
    if k < k' then (k, v) :: (k', v') :: rest
    else if k = k' then (k, v) :: rest
    else (k', v') :: assignEntry rest k v

/-- Removal of the entry with key `k` (`std::map::erase(key)`). -/
def eraseEntry : List (Nat × Nat) → Nat → List (Nat × Nat)
  | [], _ => []
  | (k', v') :: rest, k => if k' = k then rest else (k', v') :: eraseEntry rest k

theorem mem_assignEntry {l : List (Nat × Nat)} {k v : Nat} {x : Nat × Nat}
    (hx : x ∈ assignEntry l k v) : x = (k, v) ∨ x ∈ l := by
  induction l with
  | nil => simp [assignEntry] at hx; exact Or.inl hx
  | cons e rest ih =>
    obtain ⟨k', v'⟩ := e
    unfold assignEntry at hx
    split_ifs at hx with h1 h2
    · rcases List.mem_cons.1 hx with h | h
      · exact Or.inl h
      · exact Or.inr h
    · rcases List.mem_cons.1 hx with h | h
      · exact Or.inl h
      · exact Or.inr (List.mem_cons_of_mem _ h)
    · rcases List.mem_cons.1 hx with h | h
      · exact Or.inr (h ▸ List.mem_cons_self _ _)
      · rcases ih h with h | h
        · exact Or.inl h
        · exact Or.inr (List.mem_cons_of_mem _ h)

theorem mem_eraseEntry {l : List (Nat × Nat)} {k : Nat} {x : Nat × Nat}
    (hx : x ∈ eraseEntry l k) : x ∈ l := by
  induction l with
  | nil => simp [eraseEntry] at hx
  | cons e rest ih =>
    obtain ⟨k', v'⟩ := e
    unfold eraseEntry at hx
    split_ifs at hx with h1
    · exact List.mem_cons_of_mem _ hx
    · rcases List.mem_cons.1 hx with h | h
      · exact h ▸ List.mem_cons_self _ _
      · exact List.mem_cons_of_mem _ (ih h)

theorem keysAscending_assignEntry {l : List (Nat × Nat)} (hl : KeysAscending l)
    (k v : Nat) : KeysAscending (assignEntry l k v) := by
  induction l with
  | nil => simp [assignEntry, KeysAscending]
  | cons e rest ih =>
    obtain ⟨k', v'⟩ := e
    unfold KeysAscending at hl ih ⊢
    rw [List.pairwise_cons] at hl
    unfold assignEntry
    split_ifs with h1 h2
    · refine List.pairwise_cons.2 ⟨?_, List.pairwise_cons.2 hl⟩
      intro x hx
      rcases List.mem_cons.1 hx with h | h
      · subst h; exact h1
      · exact lt_trans h1 (hl.1 x h)
    · subst h2
      exact List.pairwise_cons.2 ⟨hl.1, hl.2⟩
    · refine List.pairwise_cons.2 ⟨?_, ih hl.2⟩
      intro x hx
      rcases mem_assignEntry hx with h | h
      · subst h
        show k' < k
        omega
      · exact hl.1 x h

theorem keysAscending_eraseEntry {l : List (Nat × Nat)} (hl : KeysAscending l)
    (k : Nat) : KeysAscending (eraseEntry l k) := by
  induction l with
  | nil => simp [eraseEntry, KeysAscending]
  | cons e rest ih =>
    obtain ⟨k', v'⟩ := e
    unfold KeysAscending at hl ih ⊢
    rw [List.pairwise_cons] at hl
    unfold eraseEntry
    split_ifs with h1
    · exact hl.2
    · exact List.pairwise_cons.2 ⟨fun x hx => hl.1 x (mem_eraseEntry hx), ih hl.2⟩

/-- A `std::map<Nat, Nat>`: entries ordered by strictly increasing key. -/
structure StdMap where
  entries : List (Nat × Nat)
  ascending : KeysAscending entries
  deriving DecidableEq

namespace StdMap

/-- A default-constructed (empty) map. -/
def empty : StdMap := ⟨[], List.Pairwise.nil⟩

/-- Number of entries: `m.size()`. -/
def size (m : StdMap) : Nat := m.entries.length

/-- Emptiness test: `m.empty()`. -/
def isEmpty (m : StdMap) : Bool := m.entries.isEmpty

/-- Lookup: `m.find(k)`, `none` standing for `m.end()`. -/
def find (m : StdMap) (k : Nat) : Option Nat := findEntry m.entries k

/-- Assignment through the subscript: `m[k] = v`. -/
def assign (m : StdMap) (k v : Nat) : StdMap :=
  ⟨assignEntry m.entries k v, keysAscending_assignEntry m.ascending k v⟩

/-- Reading through the subscript: `m[k]`.  When `k` is absent a
value-initialised entry (`0`) is inserted first; the value read and the
resulting map are returned. -/
def subscript (m : StdMap) (k : Nat) : Nat × StdMap :=
  match m.find k with
  | some v => (v, m)
  | none => (0, m.assign k 0)

/-- Removal by key: `m.erase(k)`. -/
def erase (m : StdMap) (k : Nat) : StdMap :=
  ⟨eraseEntry m.entries k, keysAscending_eraseEntry m.ascending k⟩

end StdMap

/-! ## The environment: Winsock calls and their results -/

/-- One byte of a `char` buffer. -/
abbrev Byte := Nat

/-- A Winsock (or kernel) call issued by the program, with the arguments that
matter; for the two calls that create a resource, with the value returned. -/
inductive OsCall where
  | accept (result : SOCKET)
  | WSACreateEvent (result : WSAEVENT)
  | WSAEventSelect (s : SOCKET) (hEvent : WSAEVENT) (lNetworkEvents : Nat)
  | WSACloseEvent (hEvent : WSAEVENT)
  | closesocket (s : SOCKET)
  | recv (s : SOCKET) (len : Nat)
  | send (s : SOCKET) (buf : List Byte) (len : Int)
  | Sleep (ms : Nat)
  | WSAWaitForMultipleEvents (cEvents : Nat) (lphEvents : List WSAEVENT)
  | WSAEnumNetworkEvents (s : SOCKET) (hEvent : WSAEVENT)
  deriving DecidableEq

/-- Program state: the two global maps and the chronological trace of the
calls issued so far (oldest first). -/
structure World where
  /-- Global `std::map<SOCKET, WSAEVENT> g_event_list`: event handle of each socket. -/
  g_event_list : StdMap
  /-- Global `std::map<WSAEVENT, SOCKET> g_socket_list`: event handle as key. -/
  g_socket_list : StdMap
  trace : List OsCall
  deriving DecidableEq

/-- Issue one OS call. -/
def World.call (w : World) (c : OsCall) : World :=
  { w with trace := w.trace ++ [c] }

/-- Effect of one call on the set of event handles that are open. -/
def stepEvents (live : List WSAEVENT) : OsCall → List WSAEVENT
  | .WSACreateEvent h => if h = WSA_INVALID_EVENT then live else h :: live
  | .WSACloseEvent h => live.filter (fun x => x ≠ h)
  | _ => live

/-- Event handles created and not yet closed along a trace. -/
def liveEvents (t : List OsCall) : List WSAEVENT := t.foldl stepEvents []

/-- Effect of one call on the set of accepted sockets that are open. -/
def stepSockets (live : List SOCKET) : OsCall → List SOCKET
  | .accept s => s :: live
  | .closesocket s => live.filter (fun x => x ≠ s)
  | _ => live

/-- Accepted sockets not yet closed along a trace. -/
def liveSockets (t : List OsCall) : List SOCKET := t.foldl stepSockets []

/-- What `recv` did: failed, or stored `bytes` at the start of the buffer and
returned their number (zero bytes: the peer has shut down). -/
inductive RecvResult where
  | error
  | data (bytes : List Byte)
  deriving DecidableEq

/-- Return value of `recv`. -/
def RecvResult.ret : RecvResult → Int
  | .error => SOCKET_ERROR
  | .data bytes => (bytes.length : Int)

/-- Contents of the buffer after `recv(s, buf, len, 0)`: at most `len` bytes
are stored, at the start of the buffer. -/
def RecvResult.fill (buf : List Byte) (len : Nat) : RecvResult → List Byte
  | .error => buf
  | .data bytes => bytes.take len ++ buf.drop (bytes.take len).length

/-- Values read from the OS by `on_accept`. -/
structure AcceptOracle where
  /-- Result of `WSACreateEvent()`. -/
  hEvent : WSAEVENT
  /-- Result of `WSAEventSelect(sockfd, hEvent, FD_READ | FD_WRITE | FD_CLOSE)`. -/
  selectRet : Int

/-- Values read from the OS (and from the uninitialised stack) by `on_recv`. -/
structure RecvOracle where
  /-- Initial contents of the local array `databuf`. -/
  stack : List Byte
  /-- Outcome of `recv`. -/
  recv : RecvResult
  /-- Result of `send`. -/
  sendRet : Int

/-- The structure `WSANETWORKEVENTS`; `lNetworkEvents` is held as its bit pattern. -/
structure WSANETWORKEVENTS where
  lNetworkEvents : Nat
  iErrorCode : List Int

/-- Values read from the OS by `event_loop`. -/
structure LoopOracle where
  /-- Result of `WSAWaitForMultipleEvents` (a `DWORD`). -/
  nready : Nat
  /-- Result of `WSAEnumNetworkEvents`. -/
  enumRet : Int
  /-- What `WSAEnumNetworkEvents` stored in `event_struct`. -/
  event_struct : WSANETWORKEVENTS
  /-- Results of the calls made by `on_recv`, should it run. -/
  recvOracle : RecvOracle

/-- The bytes a `send(s, buf, len, 0)` call hands to the OS. -/
def sentPayload : OsCall → Option (SOCKET × List Byte)
  | .send s buf len => some (s, buf.take len.toNat)
  | _ => none

/-- All payloads handed to `send` along a trace, in order. -/
def sends (t : List OsCall) : List (SOCKET × List Byte) := t.filterMap sentPayload

/-! ## The program -/

/-- Source `make_event_array`, the loop: walk the entries of `g_event_list`
in key order while `max_count-- > 0`, storing each handle at `array[count++]`. -/
def make_event_array_loop :
    List (Nat × Nat) → List WSAEVENT → Nat → Int → List WSAEVENT × Nat
  | [], array, count, _ => (array, count)
  | e :: rest, array, count, max_count =>
    if max_count > 0 then
      make_event_array_loop rest (array.set count e.2) (count + 1) (max_count - 1)
    else (array, count)

/-- Source `make_event_array(array, max_count)`: returns the filled array and the count. -/
def make_event_array (array : List WSAEVENT) (max_count : Int) (w : World) :
    List WSAEVENT × Nat :=
  make_event_array_loop w.g_event_list.entries array 0 max_count

/-- Source `on_close(sockfd, error)`. -/
def on_close (sockfd : SOCKET) (_error : Int) (w : World) : Bool × World :=
  let r := w.g_event_list.subscript sockfd
  let hEvent : WSAEVENT := r.1
  let w := { w with g_event_list := r.2 }
  let w := w.call (.WSAEventSelect sockfd NULL 0)
  let w := w.call (.WSACloseEvent hEvent)
  let w := w.call (.closesocket sockfd)
  let w := { w with g_event_list := w.g_event_list.erase sockfd }
  let w := { w with g_socket_list := w.g_socket_list.erase hEvent }
  (true, w)

/-- Source `on_recv(sockfd, error)`; `kDefaultBufferSize` comes from the
header `common/utility.h` and is a parameter here. -/
def on_recv (kDefaultBufferSize : Nat) (os : RecvOracle) (sockfd : SOCKET) (_error : Int)
    (w : World) : Bool × World :=
  let databuf := os.stack
  let w := w.call (.recv sockfd kDefaultBufferSize)
  let databuf := os.recv.fill databuf kDefaultBufferSize
  let bytes := os.recv.ret
  if bytes = SOCKET_ERROR ∧ bytes = 0 then
    on_close sockfd 0 w
  else
    let w := w.call (.send sockfd databuf bytes)
    let bytes := os.sendRet
    if bytes = 0 then
      on_close sockfd 0 w
    else
      (true, w)

/-- Source `on_write(sockfd, error)`. -/
def on_write (_sockfd : SOCKET) (_error : Int) (w : World) : Bool × World :=
  (true, w)

/-- Source `on_accept(sockfd)`. -/
def on_accept (sockfd : SOCKET) (os : AcceptOracle) (w : World) : Bool × World :=
  let hEvent := os.hEvent
  let w := w.call (.WSACreateEvent hEvent)
  if hEvent = WSA_INVALID_EVENT then
    (false, w)
  else
    let w := w.call (.WSAEventSelect sockfd hEvent (FD_READ ||| FD_WRITE ||| FD_CLOSE))
    if os.selectRet = SOCKET_ERROR then
      (false, w.call (.WSACloseEvent hEvent))
    else if w.g_event_list.size = WSA_MAXIMUM_WAIT_EVENTS then
      let w := w.call (.WSAEventSelect sockfd hEvent 0)
      let w := w.call (.WSACloseEvent hEvent)
      (false, w)
    else
      let w := { w with g_event_list := w.g_event_list.assign sockfd hEvent }
      let w := { w with g_socket_list := w.g_socket_list.assign hEvent sockfd }
      (true, w)

/-- The three handlers `handle_event` dispatches to, over a state type `σ`. -/
structure Handlers (σ : Type) where
  on_recv : SOCKET → Int → σ → Bool × σ
  on_write : SOCKET → Int → σ → Bool × σ
  on_close : SOCKET → Int → σ → Bool × σ

/-- Source `handle_event(sockfd, events_struct)`, with the handlers it calls
taken as a parameter so that the calls it makes can be observed. -/
def handle_event_with {σ : Type} (H : Handlers σ) (sockfd : SOCKET)
    (events_struct : WSANETWORKEVENTS) (st : σ) : Int × σ :=
  let errorlist := events_struct.iErrorCode
  let events := events_struct.lNetworkEvents
  let st := if events &&& FD_READ ≠ 0 then
      (H.on_recv sockfd (errorlist.getD FD_READ_BIT 0) st).2 else st
  let st := if events &&& FD_WRITE ≠ 0 then
      (H.on_write sockfd (errorlist.getD FD_WRITE_BIT 0) st).2 else st
  let st := if events &&& FD_CLOSE ≠ 0 then
      (H.on_close sockfd (errorlist.getD FD_CLOSE_BIT 0) st).2 else st
  (1, st)

/-- Names of the three handlers. -/
inductive HandlerId where
  | on_recv
  | on_write
  | on_close
  deriving DecidableEq

/-- The condition flag that selects a handler. -/
def HandlerId.flag : HandlerId → Nat
  | .on_recv => FD_READ
  | .on_write => FD_WRITE
  | .on_close => FD_CLOSE

/-- The index of a handler's error code in `iErrorCode`. -/
def HandlerId.bit : HandlerId → Nat
  | .on_recv => FD_READ_BIT
  | .on_write => FD_WRITE_BIT
  | .on_close => FD_CLOSE_BIT

/-- One invocation of the named handler; its boolean result is dropped, as
`handle_event` drops it. -/
def Handlers.invoke {σ : Type} (H : Handlers σ) (id : HandlerId) (sockfd : SOCKET)
    (error : Int) (st : σ) : σ :=
  match id with
  | .on_recv => (H.on_recv sockfd error st).2
  | .on_write => (H.on_write sockfd error st).2
  | .on_close => (H.on_close sockfd error st).2

/-- Handlers that do nothing but record their own invocation and arguments. -/
def recorder : Handlers (List (HandlerId × SOCKET × Int)) :=
  ⟨fun s e log => (true, log ++ [(.on_recv, s, e)]),
   fun s e log => (true, log ++ [(.on_write, s, e)]),
   fun s e log => (true, log ++ [(.on_close, s, e)])⟩

/-- The handlers of the program. -/
def handlers (kDefaultBufferSize : Nat) (os : RecvOracle) : Handlers World :=
  ⟨on_recv kDefaultBufferSize os, on_write, on_close⟩

/-- Source `handle_event`: the dispatcher over the program's own handlers. -/
def handle_event (kDefaultBufferSize : Nat) (os : RecvOracle) (sockfd : SOCKET)
    (events_struct : WSANETWORKEVENTS) (w : World) : Int × World :=
  handle_event_with (handlers kDefaultBufferSize os) sockfd events_struct w

/-- Source `event_loop()`. -/
def event_loop (kDefaultBufferSize : Nat) (os : LoopOracle) (w : World) : Bool × World :=
  if w.g_event_list.isEmpty then
    (true, w.call (.Sleep 100))
  else
    let eventlist : List WSAEVENT := List.replicate WSA_MAXIMUM_WAIT_EVENTS 0
    let r := make_event_array eventlist WSA_MAXIMUM_WAIT_EVENTS w
    let eventlist := r.1
    let count := r.2
    let w := w.call (.WSAWaitForMultipleEvents count eventlist)
    let nready := os.nready
    if nready = WSA_WAIT_FAILED then
      (false, w)
    else if nready = WSA_WAIT_TIMEOUT then
      (true, w)
    else if nready = WSA_WAIT_IO_COMPLETION then
      (true, w)
    else
      let index := WSA_WAIT_EVENT_0 + nready
      if index ≥ WSA_MAXIMUM_WAIT_EVENTS then
        (true, w)
      else
        let hEvent := eventlist.getD index 0
        match w.g_socket_list.find hEvent with
        | none => (true, w)
        | some sockfd =>
          let w := w.call (.WSAEnumNetworkEvents sockfd hEvent)
          if os.enumRet = SOCKET_ERROR then
            (true, (on_close sockfd 0 w).2)
          else
            (true, (handle_event kDefaultBufferSize os.recvOracle sockfd os.event_struct w).2)

/-- Source `main`, the branch of the accept loop taken when `accept` returned
a connection `socknew`: it is handed to `on_accept`, and closed if rejected. -/
def main_accept (socknew : SOCKET) (os : AcceptOracle) (w : World) : World :=
  let w := w.call (.accept socknew)
  let r := on_accept socknew os w
  if !r.1 then r.2.call (.closesocket socknew) else r.2

/-- An empty registry with nothing issued yet. -/
def World.initial : World := ⟨StdMap.empty, StdMap.empty, []⟩

/-- A map built by assigning the given pairs in turn. -/
def StdMap.ofList (l : List (Nat × Nat)) : StdMap :=
  l.foldl (fun m e => m.assign e.1 e.2) StdMap.empty

/-- One connection: socket 7 accepted and admitted with event handle 100. -/
def oneClient : World :=
  (on_accept 7 ⟨100, 0⟩ (World.initial.call (.accept 7))).2

/-- A full registry: sockets 1..64 with event handles 1001..1064. -/
def fullHouse : World :=
  ⟨StdMap.ofList ((List.range 64).map (fun i => (i + 1, i + 1001))),
   StdMap.ofList ((List.range 64).map (fun i => (i + 1001, i + 1))), []⟩

/-! ## Reachable states -/

/-- The two registry views describe the same set of pairs. -/
def Consistent (w : World) : Prop :=
  ∀ s h, w.g_event_list.find s = some h ↔ w.g_socket_list.find h = some s

/-- States the program can be in.  It starts with an empty registry (after
any earlier calls).  `accept` yields a descriptor that is not an open accepted
socket, and `WSACreateEvent` yields either `WSA_INVALID_EVENT` or a handle
that is not open: these are the only assumptions on the OS.  From a state the
program may run `on_accept` on a connection just accepted (alone, or as in
`main` where a rejected connection is closed), `on_close` on any socket
whatsoever, or one iteration of `event_loop` with any results from the OS. -/
inductive Reachable (kDefaultBufferSize : Nat) : World → Prop where
  | start (t : List OsCall) : Reachable kDefaultBufferSize ⟨StdMap.empty, StdMap.empty, t⟩
  | on_accept {w : World} (s : SOCKET) (os : AcceptOracle) :
      Reachable kDefaultBufferSize w →
      s ∉ liveSockets w.trace →
      (os.hEvent = WSA_INVALID_EVENT ∨ os.hEvent ∉ liveEvents w.trace) →
      Reachable kDefaultBufferSize (on_accept s os (w.call (.accept s))).2
  | main_accept {w : World} (s : SOCKET) (os : AcceptOracle) :
      Reachable kDefaultBufferSize w →
      s ∉ liveSockets w.trace →
      (os.hEvent = WSA_INVALID_EVENT ∨ os.hEvent ∉ liveEvents w.trace) →
      Reachable kDefaultBufferSize (main_accept s os w)
  | on_close {w : World} (s : SOCKET) (error : Int) :
      Reachable kDefaultBufferSize w →
      Reachable kDefaultBufferSize (on_close s error w).2
  | event_loop {w : World} (os : LoopOracle) :
      Reachable kDefaultBufferSize w →
      Reachable kDefaultBufferSize (event_loop kDefaultBufferSize os w).2

/-- What holds in every reachable state. -/
structure Inv (w : World) : Prop where
  consistent : Consistent w
  null_free : w.g_socket_list.find NULL = none
  events_live : ∀ h s, w.g_socket_list.find h = some s → h ∈ liveEvents w.trace
  sockets_live : ∀ s h, w.g_event_list.find s = some h → s ∈ liveSockets w.trace
  size_eq : w.g_event_list.size = w.g_socket_list.size
  size_le : w.g_event_list.size ≤ WSA_MAXIMUM_WAIT_EVENTS

/-- A call that neither creates nor releases a socket or an event handle. -/
def OsCall.neutral (c : OsCall) : Prop :=
  (∀ l, stepEvents l c = l) ∧ (∀ l, stepSockets l c = l)

/-! ## Facts about `StdMap` -/

theorem findEntry_none_of_lt {l : List (Nat × Nat)} {k : Nat}
    (h : ∀ x ∈ l, k < x.1) : findEntry l k = none := by
  induction l with
  | nil => rfl
  | cons e rest ih =>
    obtain ⟨k', v'⟩ := e
    have h1 : k < k' := h (k', v') (List.mem_cons_self _ _)
    have h2 : ¬ k' = k := by omega
    simp only [findEntry, h2, if_false]
    exact ih (fun x hx => h x (List.mem_cons_of_mem _ hx))

theorem findEntry_assignEntry_self (l : List (Nat × Nat)) (k v : Nat) :
    findEntry (assignEntry l k v) k = some v := by
  induction l with
  | nil => simp [assignEntry, findEntry]
  | cons e rest ih =>
    obtain ⟨k', v'⟩ := e
    unfold assignEntry
    by_cases h1 : k < k'
    · simp [h1, findEntry]
    · by_cases h2 : k = k'
      · simp [h2, findEntry]
      · have h3 : ¬ k' = k := fun e => h2 e.symm
        simp [h1, h2, h3, findEntry, ih]

theorem findEntry_assignEntry_of_ne (l : List (Nat × Nat)) (k v : Nat) {k2 : Nat}
    (hne : k2 ≠ k) : findEntry (assignEntry l k v) k2 = findEntry l k2 := by
  have hne' : ¬ k = k2 := fun e => hne e.symm
  induction l with
  | nil => simp [assignEntry, findEntry, hne']
  | cons e rest ih =>
    obtain ⟨k', v'⟩ := e
    unfold assignEntry
    by_cases h1 : k < k'
    · simp [h1, findEntry, hne']
    · by_cases h2 : k = k'
      · subst h2
        simp [findEntry, hne']
      · simp [h1, h2, findEntry, ih]

theorem findEntry_assignEntry (l : List (Nat × Nat)) (k v k2 : Nat) :
    findEntry (assignEntry l k v) k2 = if k2 = k then some v else findEntry l k2 := by
  by_cases h : k2 = k
  · subst h; simp [findEntry_assignEntry_self]
  · simp [h, findEntry_assignEntry_of_ne l k v h]

theorem findEntry_eraseEntry_self {l : List (Nat × Nat)} (hl : KeysAscending l) (k : Nat) :
    findEntry (eraseEntry l k) k = none := by
  induction l with
  | nil => simp [eraseEntry, findEntry]
  | cons e rest ih =>
    obtain ⟨k', v'⟩ := e
    unfold KeysAscending at hl ih
    rw [List.pairwise_cons] at hl
    unfold eraseEntry
    by_cases h1 : k' = k
    · subst h1
      simp only [if_true]
      exact findEntry_none_of_lt hl.1
    · simp [h1, findEntry, ih hl.2]

theorem findEntry_eraseEntry_of_ne (l : List (Nat × Nat)) (k : Nat) {k2 : Nat}
    (hne : k2 ≠ k) : findEntry (eraseEntry l k) k2 = findEntry l k2 := by
  induction l with
  | nil => simp [eraseEntry, findEntry]
  | cons e rest ih =>
    obtain ⟨k', v'⟩ := e
    unfold eraseEntry
    by_cases h1 : k' = k
    · have h2 : ¬ k' = k2 := fun e => hne (e.symm.trans h1)
      have h3 : ¬ k = k2 := fun e => hne e.symm
      simp [h1, findEntry, h3]
    · simp [h1, findEntry, ih]

theorem findEntry_eraseEntry {l : List (Nat × Nat)} (hl : KeysAscending l) (k k2 : Nat) :
    findEntry (eraseEntry l k) k2 = if k2 = k then none else findEntry l k2 := by
  by_cases h : k2 = k
  · subst h; simp [findEntry_eraseEntry_self hl]
  · simp [h, findEntry_eraseEntry_of_ne l k h]

theorem length_assignEntry {l : List (Nat × Nat)} (hl : KeysAscending l) (k v : Nat) :
    (assignEntry l k v).length =
      if findEntry l k = none then l.length + 1 else l.length := by
  induction l with
  | nil => simp [assignEntry, findEntry]
  | cons e rest ih =>
    obtain ⟨k', v'⟩ := e
    unfold KeysAscending at hl ih
    rw [List.pairwise_cons] at hl
    unfold assignEntry
    by_cases h1 : k < k'
    · have h' : ¬ k' = k := by omega
      have hn : findEntry ((k', v') :: rest) k = none := by
        simp only [findEntry, h', if_false]
        exact findEntry_none_of_lt (fun x hx => lt_trans h1 (hl.1 x hx))
      simp [h1, hn]
    · by_cases h2 : k = k'
      · simp [h1, h2, findEntry]
      · have h' : ¬ k' = k := fun e => h2 e.symm
        simp only [h1, h2, if_false, findEntry, h', List.length_cons, ih hl.2]
        split_ifs <;> rfl

theorem length_eraseEntry (l : List (Nat × Nat)) (k : Nat) :
    (eraseEntry l k).length =
      if findEntry l k = none then l.length else l.length - 1 := by
  induction l with
  | nil => simp [eraseEntry, findEntry]
  | cons e rest ih =>
    obtain ⟨k', v'⟩ := e
    unfold eraseEntry
    by_cases h1 : k' = k
    · simp [findEntry, h1]
    · simp only [findEntry, h1, if_false, List.length_cons, ih]
      split_ifs with h2
      · rfl
      · have : rest ≠ [] := by
          intro e; subst e; exact h2 rfl
        have : 0 < rest.length := List.length_pos.2 this
        omega

theorem eraseEntry_assignEntry {l : List (Nat × Nat)} {k : Nat}
    (h : findEntry l k = none) (v : Nat) : eraseEntry (assignEntry l k v) k = l := by
  induction l with
  | nil => simp [assignEntry, eraseEntry]
  | cons e rest ih =>
    obtain ⟨k', v'⟩ := e
    by_cases h0 : k' = k
    · simp [findEntry, h0] at h
    · simp only [findEntry, h0, if_false] at h
      unfold assignEntry
      split_ifs with h1 h2
      · simp [eraseEntry]
      · exact absurd h2.symm h0
      · simp [eraseEntry, h0, ih h]

theorem eraseEntry_absent {l : List (Nat × Nat)} {k : Nat}
    (h : findEntry l k = none) : eraseEntry l k = l := by
  induction l with
  | nil => rfl
  | cons e rest ih =>
    obtain ⟨k', v'⟩ := e
    by_cases h0 : k' = k
    · simp [findEntry, h0] at h
    · simp only [findEntry, h0, if_false] at h
      simp [eraseEntry, h0, ih h]

namespace StdMap

theorem ext_entries {a b : StdMap} (h : a.entries = b.entries) : a = b := by
  cases a; cases b; cases h; rfl

theorem find_assign (m : StdMap) (k v k2 : Nat) :
    (m.assign k v).find k2 = if k2 = k then some v else m.find k2 :=
  findEntry_assignEntry m.entries k v k2

theorem find_erase (m : StdMap) (k k2 : Nat) :
    (m.erase k).find k2 = if k2 = k then none else m.find k2 :=
  findEntry_eraseEntry m.ascending k k2

theorem size_assign (m : StdMap) (k v : Nat) :
    (m.assign k v).size = if m.find k = none then m.size + 1 else m.size :=
  length_assignEntry m.ascending k v

theorem size_erase (m : StdMap) (k : Nat) :
    (m.erase k).size = if m.find k = none then m.size else m.size - 1 :=
  length_eraseEntry m.entries k

theorem erase_assign {m : StdMap} {k : Nat} (h : m.find k = none) (v : Nat) :
    (m.assign k v).erase k = m :=
  ext_entries (eraseEntry_assignEntry h v)

theorem erase_absent {m : StdMap} {k : Nat} (h : m.find k = none) : m.erase k = m :=
  ext_entries (eraseEntry_absent h)

/-- Reading `m[k]` and then erasing `k` is erasing `k`. -/
theorem erase_subscript (m : StdMap) (k : Nat) : (m.subscript k).2.erase k = m.erase k := by
  unfold subscript
  cases h : m.find k with
  | some v => rfl
  | none => simp only; rw [erase_assign h, erase_absent h]

theorem subscript_fst (m : StdMap) (k : Nat) : (m.subscript k).1 = (m.find k).getD 0 := by
  unfold subscript
  cases h : m.find k <;> rfl

end StdMap

/-! ## Facts about the trace -/

theorem liveEvents_append (t : List OsCall) (c : OsCall) :
    liveEvents (t ++ [c]) = stepEvents (liveEvents t) c := by
  simp [liveEvents, List.foldl_append]

theorem liveSockets_append (t : List OsCall) (c : OsCall) :
    liveSockets (t ++ [c]) = stepSockets (liveSockets t) c := by
  simp [liveSockets, List.foldl_append]

theorem Inv.call {w : World} (hw : Inv w) {c : OsCall} (hc : c.neutral) : Inv (w.call c) := by
  refine ⟨hw.consistent, hw.null_free, ?_, ?_, hw.size_eq, hw.size_le⟩
  · intro h s hs
    show h ∈ liveEvents (w.trace ++ [c])
    rw [liveEvents_append, hc.1]
    exact hw.events_live h s hs
  · intro s h hs
    show s ∈ liveSockets (w.trace ++ [c])
    rw [liveSockets_append, hc.2]
    exact hw.sockets_live s h hs

/-! ## `on_close` -/

/-- The state `on_close` returns, written out. -/
theorem on_close_eq (sockfd : SOCKET) (error : Int) (w : World) :
    on_close sockfd error w =
      (true,
        { g_event_list := w.g_event_list.erase sockfd
          g_socket_list := w.g_socket_list.erase ((w.g_event_list.find sockfd).getD NULL)
          trace := w.trace ++ [.WSAEventSelect sockfd NULL 0,
            .WSACloseEvent ((w.g_event_list.find sockfd).getD NULL), .closesocket sockfd] }) := by
  simp [on_close, World.call, StdMap.erase_subscript, StdMap.subscript_fst, NULL]

theorem Inv.on_close {w : World} (hw : Inv w) (sockfd : SOCKET) (error : Int) :
    Inv (on_close sockfd error w).2 := by
  rw [on_close_eq]
  have hc := hw.consistent
  have hnull := hw.null_free
  -- the handle erased from `g_socket_list`
  set h0 := (w.g_event_list.find sockfd).getD NULL with hh0
  have key : ∀ s h, w.g_event_list.find s = some h → (s ≠ sockfd ↔ h ≠ h0) := by
    intro s h hsh
    cases hf : w.g_event_list.find sockfd with
    | none =>
      have e0 : h0 = NULL := by rw [hh0, hf]; rfl
      constructor
      · intro _ e
        rw [e, e0] at hsh
        rw [(hc s NULL).1 hsh] at hnull
        exact Option.noConfusion hnull
      · intro _ e
        rw [e, hf] at hsh
        exact Option.noConfusion hsh
    | some h1 =>
      have e0 : h0 = h1 := by rw [hh0, hf]; rfl
      rw [e0]
      constructor
      · intro hne e
        subst e
        have a := (hc s h).1 hsh
        have b := (hc sockfd h).1 hf
        rw [a] at b
        exact hne (Option.some.inj b)
      · intro hne e
        subst e
        rw [hf] at hsh
        exact hne (Option.some.inj hsh).symm
  have sizes : (w.g_event_list.find sockfd = none ↔ w.g_socket_list.find h0 = none) := by
    cases hf : w.g_event_list.find sockfd with
    | none =>
      have e0 : h0 = NULL := by rw [hh0, hf]; rfl
      rw [e0]; simp [hnull]
    | some h1 =>
      have e0 : h0 = h1 := by rw [hh0, hf]; rfl
      rw [e0, (hc sockfd h1).1 hf]; simp
  refine ⟨?_, ?_, ?_, ?_, ?_, ?_⟩
  · intro s h
    show (w.g_event_list.erase sockfd).find s = some h ↔ (w.g_socket_list.erase h0).find h = some s
    rw [StdMap.find_erase, StdMap.find_erase]
    constructor
    · intro hs
      by_cases e : s = sockfd
      · simp [e] at hs
      · simp only [e, if_false] at hs
        have := (key s h hs).1 e
        simp [this, (hc s h).1 hs]
    · intro hs
      by_cases e : h = h0
      · simp [e] at hs
      · simp only [e, if_false] at hs
        have hs' := (hc s h).2 hs
        have := (key s h hs').2 e
        simp [this, hs']
  · show (w.g_socket_list.erase h0).find NULL = none
    rw [StdMap.find_erase]
    split_ifs <;> simp [hnull]
  · intro h s hs
    have hs : (w.g_socket_list.erase h0).find h = some s := hs
    rw [StdMap.find_erase] at hs
    by_cases e : h = h0
    · simp [e] at hs
    · simp only [e, if_false] at hs
      have hl := hw.events_live h s hs
      show h ∈ liveEvents (w.trace ++ [_, _, _])
      have : w.trace ++ [OsCall.WSAEventSelect sockfd NULL 0, OsCall.WSACloseEvent h0,
          OsCall.closesocket sockfd] = ((w.trace ++ [OsCall.WSAEventSelect sockfd NULL 0]) ++
          [OsCall.WSACloseEvent h0]) ++ [OsCall.closesocket sockfd] := by simp
      rw [this, liveEvents_append, liveEvents_append, liveEvents_append]
      simp [stepEvents, hl, e]
  · intro s h hs
    have hs : (w.g_event_list.erase sockfd).find s = some h := hs
    rw [StdMap.find_erase] at hs
    by_cases e : s = sockfd
    · simp [e] at hs
    · simp only [e, if_false] at hs
      have hl := hw.sockets_live s h hs
      show s ∈ liveSockets (w.trace ++ [_, _, _])
      have : w.trace ++ [OsCall.WSAEventSelect sockfd NULL 0, OsCall.WSACloseEvent h0,
          OsCall.closesocket sockfd] = ((w.trace ++ [OsCall.WSAEventSelect sockfd NULL 0]) ++
          [OsCall.WSACloseEvent h0]) ++ [OsCall.closesocket sockfd] := by simp
      rw [this, liveSockets_append, liveSockets_append, liveSockets_append]
      simp [stepSockets, hl, e]
  · show (w.g_event_list.erase sockfd).size = (w.g_socket_list.erase h0).size
    rw [StdMap.size_erase, StdMap.size_erase, hw.size_eq]
    by_cases hf : w.g_event_list.find sockfd = none
    · simp [hf, sizes.1 hf]
    · have hg : ¬ w.g_socket_list.find h0 = none := fun e => hf (sizes.2 e)
      simp [hf, hg]
  · show (w.g_event_list.erase sockfd).size ≤ WSA_MAXIMUM_WAIT_EVENTS
    rw [StdMap.size_erase]
    have := hw.size_le
    split_ifs <;> omega

/-! ## `on_accept` -/

theorem Inv.accept_call {w : World} (hw : Inv w) (s : SOCKET) : Inv (w.call (.accept s)) := by
  refine ⟨hw.consistent, hw.null_free, ?_, ?_, hw.size_eq, hw.size_le⟩
  · intro h s1 hs
    show h ∈ liveEvents (w.trace ++ [_])
    rw [liveEvents_append]
    exact hw.events_live h s1 hs
  · intro s1 h hs
    show s1 ∈ liveSockets (w.trace ++ [_])
    rw [liveSockets_append]
    exact List.mem_cons_of_mem _ (hw.sockets_live s1 h hs)

theorem Inv.closesocket_call {w : World} (hw : Inv w) {s : SOCKET}
    (hs : w.g_event_list.find s = none) : Inv (w.call (.closesocket s)) := by
  refine ⟨hw.consistent, hw.null_free, ?_, ?_, hw.size_eq, hw.size_le⟩
  · intro h s1 h1
    show h ∈ liveEvents (w.trace ++ [_])
    rw [liveEvents_append]
    exact hw.events_live h s1 h1
  · intro s1 h h1
    show s1 ∈ liveSockets (w.trace ++ [_])
    rw [liveSockets_append]
    have h1 : w.g_event_list.find s1 = some h := h1
    have hne : s1 ≠ s := by
      intro e; rw [e, hs] at h1; exact Option.noConfusion h1
    simp [stepSockets, hw.sockets_live s1 h h1, hne]

/-- A handle that is not open is not a key of `g_socket_list`. -/
theorem Inv.find_of_not_live {w : World} (hw : Inv w) {h : WSAEVENT}
    (hh : h ∉ liveEvents w.trace) : w.g_socket_list.find h = none := by
  cases hf : w.g_socket_list.find h with
  | none => rfl
  | some s => exact absurd (hw.events_live h s hf) hh

/-- A socket that is not open is not a key of `g_event_list`. -/
theorem Inv.find_of_not_open {w : World} (hw : Inv w) {s : SOCKET}
    (hs : s ∉ liveSockets w.trace) : w.g_event_list.find s = none := by
  cases hf : w.g_event_list.find s with
  | none => rfl
  | some h => exact absurd (hw.sockets_live s h hf) hs

/-- A rejected `on_accept` leaves both maps as they were. -/
theorem on_accept_false_registry (sockfd : SOCKET) (os : AcceptOracle) (w : World)
    (h : (on_accept sockfd os w).1 = false) :
    (on_accept sockfd os w).2.g_event_list = w.g_event_list ∧
      (on_accept sockfd os w).2.g_socket_list = w.g_socket_list := by
  unfold on_accept at h ⊢
  simp only [World.call] at h ⊢
  split_ifs at h ⊢ <;> simp_all

theorem Inv.on_accept {w : World} (hw : Inv w) (sockfd : SOCKET) (os : AcceptOracle)
    (hreg : w.g_event_list.find sockfd = none)
    (hopen : sockfd ∈ liveSockets w.trace)
    (hfresh : os.hEvent = WSA_INVALID_EVENT ∨ os.hEvent ∉ liveEvents w.trace) :
    Inv (on_accept sockfd os w).2 := by
  unfold AsyncEvent.on_accept
  by_cases h1 : os.hEvent = WSA_INVALID_EVENT
  · simp only [h1, if_true]
    refine ⟨hw.consistent, hw.null_free, ?_, ?_, hw.size_eq, hw.size_le⟩
    · intro h s hs
      show h ∈ liveEvents (w.trace ++ [_])
      rw [liveEvents_append]
      simpa [stepEvents] using hw.events_live h s hs
    · intro s h hs
      show s ∈ liveSockets (w.trace ++ [_])
      rw [liveSockets_append]
      exact hw.sockets_live s h hs
  · have hnl : os.hEvent ∉ liveEvents w.trace := hfresh.resolve_left h1
    have hS : w.g_socket_list.find os.hEvent = none := hw.find_of_not_live hnl
    have hne : ∀ h s, w.g_socket_list.find h = some s → h ≠ os.hEvent := by
      intro h s hs e
      rw [e, hS] at hs
      exact Option.noConfusion hs
    simp only [h1, if_false]
    by_cases h2 : os.selectRet = SOCKET_ERROR
    · simp only [h2, if_true]
      refine ⟨hw.consistent, hw.null_free, ?_, ?_, hw.size_eq, hw.size_le⟩
      · intro h s hs
        show h ∈ liveEvents (((w.trace ++ [_]) ++ [_]) ++ [_])
        rw [liveEvents_append, liveEvents_append, liveEvents_append]
        simp [stepEvents, h1, hw.events_live h s hs, hne h s hs]
      · intro s h hs
        show s ∈ liveSockets (((w.trace ++ [_]) ++ [_]) ++ [_])
        rw [liveSockets_append, liveSockets_append, liveSockets_append]
        exact hw.sockets_live s h hs
    · simp only [h2, if_false]
      have hsz : ((w.call (.WSACreateEvent os.hEvent)).call
          (.WSAEventSelect sockfd os.hEvent (FD_READ ||| FD_WRITE ||| FD_CLOSE))).g_event_list.size
          = w.g_event_list.size := rfl
      rw [hsz]
      by_cases h3 : w.g_event_list.size = WSA_MAXIMUM_WAIT_EVENTS
      · simp only [h3, if_true]
        refine ⟨hw.consistent, hw.null_free, ?_, ?_, hw.size_eq, hw.size_le⟩
        · intro h s hs
          show h ∈ liveEvents ((((w.trace ++ [_]) ++ [_]) ++ [_]) ++ [_])
          rw [liveEvents_append, liveEvents_append, liveEvents_append, liveEvents_append]
          simp [stepEvents, h1, hw.events_live h s hs, hne h s hs]
        · intro s h hs
          show s ∈ liveSockets ((((w.trace ++ [_]) ++ [_]) ++ [_]) ++ [_])
          rw [liveSockets_append, liveSockets_append, liveSockets_append, liveSockets_append]
          exact hw.sockets_live s h hs
      · simp only [h3, if_false]
        have hc := hw.consistent
        refine ⟨?_, ?_, ?_, ?_, ?_, ?_⟩
        · intro s h
          show (w.g_event_list.assign sockfd os.hEvent).find s = some h ↔
            (w.g_socket_list.assign os.hEvent sockfd).find h = some s
          rw [StdMap.find_assign, StdMap.find_assign]
          by_cases e1 : s = sockfd
          · by_cases e2 : h = os.hEvent
            · simp [e1, e2]
            · have : ¬ os.hEvent = h := fun e => e2 e.symm
              simp only [e1, e2, if_true, if_false, Option.some.injEq, this, false_iff]
              intro hs
              have := (hc sockfd h).2 hs
              rw [hreg] at this
              exact Option.noConfusion this
          · by_cases e2 : h = os.hEvent
            · have : ¬ sockfd = s := fun e => e1 e.symm
              simp only [e1, e2, if_true, if_false, Option.some.injEq, this, iff_false]
              intro hs
              have := (hc s os.hEvent).1 hs
              rw [hS] at this
              exact Option.noConfusion this
            · simp only [e1, e2, if_false]
              exact hc s h
        · show (w.g_socket_list.assign os.hEvent sockfd).find NULL = none
          rw [StdMap.find_assign]
          have : ¬ NULL = os.hEvent := fun e => h1 e.symm
          simp [this, hw.null_free]
        · intro h s hs
          have hs : (w.g_socket_list.assign os.hEvent sockfd).find h = some s := hs
          rw [StdMap.find_assign] at hs
          show h ∈ liveEvents ((w.trace ++ [_]) ++ [_])
          rw [liveEvents_append, liveEvents_append]
          by_cases e : h = os.hEvent
          · simp [stepEvents, h1, e]
          · simp only [e, if_false] at hs
            simp [stepEvents, h1, hw.events_live h s hs]
        · intro s h hs
          have hs : (w.g_event_list.assign sockfd os.hEvent).find s = some h := hs
          rw [StdMap.find_assign] at hs
          show s ∈ liveSockets ((w.trace ++ [_]) ++ [_])
          rw [liveSockets_append, liveSockets_append]
          by_cases e : s = sockfd
          · simpa [stepSockets, e] using hopen
          · simp only [e, if_false] at hs
            exact hw.sockets_live s h hs
        · show (w.g_event_list.assign sockfd os.hEvent).size =
            (w.g_socket_list.assign os.hEvent sockfd).size
          rw [StdMap.size_assign, StdMap.size_assign, hw.size_eq]
          simp [hreg, hS]
        · show (w.g_event_list.assign sockfd os.hEvent).size ≤ WSA_MAXIMUM_WAIT_EVENTS
          rw [StdMap.size_assign]
          have := hw.size_le
          simp only [hreg, if_true]
          omega

/-! ## `on_recv`, `handle_event`, `event_loop` -/

theorem neutral_recv (s : SOCKET) (len : Nat) : (OsCall.recv s len).neutral :=
  ⟨fun _ => rfl, fun _ => rfl⟩

theorem neutral_send (s : SOCKET) (buf : List Byte) (len : Int) :
    (OsCall.send s buf len).neutral :=
  ⟨fun _ => rfl, fun _ => rfl⟩

theorem neutral_Sleep (ms : Nat) : (OsCall.Sleep ms).neutral :=
  ⟨fun _ => rfl, fun _ => rfl⟩

theorem neutral_wait (n : Nat) (l : List WSAEVENT) :
    (OsCall.WSAWaitForMultipleEvents n l).neutral :=
  ⟨fun _ => rfl, fun _ => rfl⟩

theorem neutral_enum (s : SOCKET) (h : WSAEVENT) : (OsCall.WSAEnumNetworkEvents s h).neutral :=
  ⟨fun _ => rfl, fun _ => rfl⟩

theorem Inv.on_recv {w : World} (hw : Inv w) (k : Nat) (os : RecvOracle) (sockfd : SOCKET)
    (error : Int) : Inv (on_recv k os sockfd error w).2 := by
  unfold AsyncEvent.on_recv
  simp only
  split_ifs
  · exact (hw.call (neutral_recv _ _)).on_close _ _
  · exact ((hw.call (neutral_recv _ _)).call (neutral_send _ _ _)).on_close _ _
  · exact (hw.call (neutral_recv _ _)).call (neutral_send _ _ _)

/-- A property kept by each handler is kept by the dispatcher. -/
theorem handle_event_with_preserves {σ : Type} (P : σ → Prop) (H : Handlers σ)
    (hr : ∀ s e st, P st → P (H.on_recv s e st).2)
    (hwr : ∀ s e st, P st → P (H.on_write s e st).2)
    (hc : ∀ s e st, P st → P (H.on_close s e st).2)
    (sockfd : SOCKET) (ev : WSANETWORKEVENTS) (st : σ) (h : P st) :
    P (handle_event_with H sockfd ev st).2 := by
  unfold handle_event_with
  simp only
  have a : P (if ev.lNetworkEvents &&& FD_READ ≠ 0 then
      (H.on_recv sockfd (ev.iErrorCode.getD FD_READ_BIT 0) st).2 else st) := by
    split_ifs
    · exact hr _ _ _ h
    · exact h
  generalize (if ev.lNetworkEvents &&& FD_READ ≠ 0 then
      (H.on_recv sockfd (ev.iErrorCode.getD FD_READ_BIT 0) st).2 else st) = st1 at a ⊢
  have b : P (if ev.lNetworkEvents &&& FD_WRITE ≠ 0 then
      (H.on_write sockfd (ev.iErrorCode.getD FD_WRITE_BIT 0) st1).2 else st1) := by
    split_ifs
    · exact hwr _ _ _ a
    · exact a
  generalize (if ev.lNetworkEvents &&& FD_WRITE ≠ 0 then
      (H.on_write sockfd (ev.iErrorCode.getD FD_WRITE_BIT 0) st1).2 else st1) = st2 at b ⊢
  split_ifs
  · exact hc _ _ _ b
  · exact b

theorem Inv.handle_event {w : World} (hw : Inv w) (k : Nat) (os : RecvOracle) (sockfd : SOCKET)
    (ev : WSANETWORKEVENTS) : Inv (handle_event k os sockfd ev w).2 :=
  handle_event_with_preserves Inv (handlers k os)
    (fun s e _ h => h.on_recv k os s e) (fun _ _ _ h => h) (fun s e _ h => h.on_close s e)
    sockfd ev w hw

theorem Inv.event_loop {w : World} (hw : Inv w) (k : Nat) (os : LoopOracle) :
    Inv (event_loop k os w).2 := by
  unfold AsyncEvent.event_loop
  simp only
  split_ifs <;> try split
  all_goals dsimp only
  all_goals first
    | exact hw.call (neutral_Sleep _)
    | exact hw.call (neutral_wait _ _)
    | exact ((hw.call (neutral_wait _ _)).call (neutral_enum _ _)).on_close _ _
    | exact ((hw.call (neutral_wait _ _)).call (neutral_enum _ _)).handle_event _ _ _ _

theorem Inv.main_accept {w : World} (hw : Inv w) (s : SOCKET) (os : AcceptOracle)
    (hs : s ∉ liveSockets w.trace)
    (hfresh : os.hEvent = WSA_INVALID_EVENT ∨ os.hEvent ∉ liveEvents w.trace) :
    Inv (main_accept s os w) := by
  have hreg : (w.call (.accept s)).g_event_list.find s = none := hw.find_of_not_open hs
  have hopen : s ∈ liveSockets (w.call (.accept s)).trace := by
    show s ∈ liveSockets (w.trace ++ [_])
    rw [liveSockets_append]
    exact List.mem_cons_self _ _
  have hfresh2 : os.hEvent = WSA_INVALID_EVENT ∨
      os.hEvent ∉ liveEvents (w.call (.accept s)).trace := by
    have : liveEvents (w.call (.accept s)).trace = liveEvents w.trace := by
      show liveEvents (w.trace ++ [_]) = _
      rw [liveEvents_append]; rfl
    rw [this]; exact hfresh
  have hi := (hw.accept_call s).on_accept s os hreg hopen hfresh2
  unfold AsyncEvent.main_accept
  simp only
  cases hr : (AsyncEvent.on_accept s os (w.call (.accept s))).1 with
  | true => simpa [hr] using hi
  | false =>
    simp only [hr, Bool.not_false, if_true]
    apply hi.closesocket_call
    rw [(on_accept_false_registry s os _ hr).1]
    exact hreg

theorem Inv.of_empty (t : List OsCall) : Inv ⟨StdMap.empty, StdMap.empty, t⟩ := by
  refine ⟨fun s h => ?_, rfl, fun h s hs => ?_, fun s h hs => ?_, rfl, Nat.zero_le _⟩
  · constructor <;> intro hs <;> exact Option.noConfusion hs
  · exact Option.noConfusion hs
  · exact Option.noConfusion hs

/-- Every reachable state satisfies the invariant. -/
theorem Reachable.inv {k : Nat} {w : World} (h : Reachable k w) : Inv w := by
  induction h with
  | start t => exact Inv.of_empty t
  | on_accept s os _ hs hfresh ih =>
    have hreg : (World.call _ (.accept s)).g_event_list.find s = none := ih.find_of_not_open hs
    refine (ih.accept_call s).on_accept s os hreg ?_ ?_
    · show s ∈ liveSockets (_ ++ [_])
      rw [liveSockets_append]
      exact List.mem_cons_self _ _
    · rcases hfresh with h | h
      · exact Or.inl h
      · refine Or.inr ?_
        show os.hEvent ∉ liveEvents (_ ++ [_])
        rw [liveEvents_append]
        exact h
  | main_accept s os _ hs hfresh ih => exact ih.main_accept s os hs hfresh
  | on_close s e _ ih => exact ih.on_close s e
  | event_loop os _ ih => exact ih.event_loop k os

theorem null_not_mem_foldl_stepEvents (t : List OsCall) :
    ∀ init : List WSAEVENT, NULL ∉ init → NULL ∉ t.foldl stepEvents init := by
  induction t with
  | nil => intro init h; exact h
  | cons c rest ih =>
    intro init h
    rw [List.foldl_cons]
    apply ih
    cases c <;> simp only [stepEvents] <;> try exact h
    · split_ifs with h1
      · exact h
      · intro hm
        rcases List.mem_cons.1 hm with e | e
        · exact h1 e.symm
        · exact h e
    · intro hm
      exact h (List.mem_filter.1 hm).1

/-- The null handle is never among the open event handles. -/
theorem null_not_live (t : List OsCall) : NULL ∉ liveEvents t :=
  null_not_mem_foldl_stepEvents t [] (List.not_mem_nil _)

/-- The receive check of `on_recv`, `bytes == SOCKET_ERROR && bytes == 0`, holds for no value. -/
theorem recv_check_false (bytes : Int) : ¬ (bytes = SOCKET_ERROR ∧ bytes = 0) := by
  rintro ⟨h1, h2⟩
  rw [h1] at h2
  exact absurd h2 (by decide)

theorem sends_append (t u : List OsCall) : sends (t ++ u) = sends t ++ sends u := by
  simp [sends, List.filterMap_append]

/-- `event_loop` on a non-empty registry when the wait reports an index below 64. -/
theorem event_loop_signalled (k : Nat) (os : LoopOracle) (w : World)
    (he : w.g_event_list.isEmpty = false) (hlt : os.nready < WSA_MAXIMUM_WAIT_EVENTS) :
    event_loop k os w =
      match w.g_socket_list.find
          ((make_event_array (List.replicate WSA_MAXIMUM_WAIT_EVENTS 0)
            WSA_MAXIMUM_WAIT_EVENTS w).1.getD os.nready 0) with
      | none => (true, w.call (.WSAWaitForMultipleEvents
          (make_event_array (List.replicate WSA_MAXIMUM_WAIT_EVENTS 0)
            WSA_MAXIMUM_WAIT_EVENTS w).2
          (make_event_array (List.replicate WSA_MAXIMUM_WAIT_EVENTS 0)
            WSA_MAXIMUM_WAIT_EVENTS w).1))
      | some sockfd =>
        if os.enumRet = SOCKET_ERROR then
          (true, (on_close sockfd 0 ((w.call (.WSAWaitForMultipleEvents
            (make_event_array (List.replicate WSA_MAXIMUM_WAIT_EVENTS 0)
              WSA_MAXIMUM_WAIT_EVENTS w).2
            (make_event_array (List.replicate WSA_MAXIMUM_WAIT_EVENTS 0)
              WSA_MAXIMUM_WAIT_EVENTS w).1)).call
            (.WSAEnumNetworkEvents sockfd
              ((make_event_array (List.replicate WSA_MAXIMUM_WAIT_EVENTS 0)
                WSA_MAXIMUM_WAIT_EVENTS w).1.getD os.nready 0)))).2)
        else
          (true, (handle_event k os.recvOracle sockfd os.event_struct
            ((w.call (.WSAWaitForMultipleEvents
            (make_event_array (List.replicate WSA_MAXIMUM_WAIT_EVENTS 0)
              WSA_MAXIMUM_WAIT_EVENTS w).2
            (make_event_array (List.replicate WSA_MAXIMUM_WAIT_EVENTS 0)
              WSA_MAXIMUM_WAIT_EVENTS w).1)).call
            (.WSAEnumNetworkEvents sockfd
              ((make_event_array (List.replicate WSA_MAXIMUM_WAIT_EVENTS 0)
                WSA_MAXIMUM_WAIT_EVENTS w).1.getD os.nready 0)))).2) := by
  have h1 : ¬ os.nready = WSA_WAIT_FAILED := by
    simp only [WSA_MAXIMUM_WAIT_EVENTS, WSA_WAIT_FAILED] at hlt ⊢; omega
  have h2 : ¬ os.nready = WSA_WAIT_TIMEOUT := by
    simp only [WSA_MAXIMUM_WAIT_EVENTS, WSA_WAIT_TIMEOUT] at hlt ⊢; omega
  have h3 : ¬ os.nready = WSA_WAIT_IO_COMPLETION := by
    simp only [WSA_MAXIMUM_WAIT_EVENTS, WSA_WAIT_IO_COMPLETION] at hlt ⊢; omega
  have h5 : WSA_WAIT_EVENT_0 + os.nready = os.nready := by
    simp only [WSA_WAIT_EVENT_0]; omega
  have h4 : ¬ os.nready ≥ WSA_MAXIMUM_WAIT_EVENTS := by omega
  unfold event_loop
  simp only [he, h1, h2, h3, h5, h4, if_false, Bool.false_eq_true]
  rfl

/-- Why `Reachable` asks `accept` for a descriptor that is not open: were socket 7
handed to `on_accept` again while still registered, handle 100 would stay in
`g_socket_list` although `g_event_list` now gives socket 7 the handle 101. -/
theorem readmission_breaks_views :
    (on_accept 7 ⟨101, 0⟩ oneClient).2.g_socket_list.find 100 = some 7 ∧
      (on_accept 7 ⟨101, 0⟩ oneClient).2.g_event_list.find 7 = some 101 := by
  decide

/-! ## The claims -/

/-- C1: in every state reachable from the empty registry by `on_accept` and
`on_close` calls (and by `event_loop` iterations), `g_event_list` maps socket
`s` to handle `h` if and only if `g_socket_list` maps handle `h` to socket `s`.
The OS is assumed to hand out, from `accept` and `WSACreateEvent`, only
descriptors that are not currently open. -/
theorem registry_views_consistent (k : Nat) (w : World) (hw : Reachable k w) :
    ∀ s h, w.g_event_list.find s = some h ↔ w.g_socket_list.find h = some s :=
  hw.inv.consistent

/-- Witness for C1: after accepting sockets 7 and 9 and closing 7 the views agree. -/
theorem registry_views_consistent_witness :
    Reachable 512
        (on_close 7 0 (on_accept 9 ⟨101, 0⟩ (oneClient.call (.accept 9))).2).2 ∧
      ∀ s h,
        (on_close 7 0 (on_accept 9 ⟨101, 0⟩ (oneClient.call (.accept 9))).2).2.g_event_list.find s
            = some h ↔
        (on_close 7 0 (on_accept 9 ⟨101, 0⟩ (oneClient.call (.accept 9))).2).2.g_socket_list.find h
            = some s :=
  have hr : Reachable 512
      (on_close 7 0 (on_accept 9 ⟨101, 0⟩ (oneClient.call (.accept 9))).2).2 :=
    Reachable.on_close 7 0
      (Reachable.on_accept 9 ⟨101, 0⟩
        (Reachable.on_accept 7 ⟨100, 0⟩ (Reachable.start []) (by decide) (by decide))
        (by decide) (by decide))
  ⟨hr, registry_views_consistent 512 _ hr⟩

/-- C2: in every reachable state each of `g_event_list` and `g_socket_list`
holds at most `WSA_MAXIMUM_WAIT_EVENTS = 64` entries. -/
theorem registry_size_le_max (k : Nat) (w : World) (hw : Reachable k w) :
    WSA_MAXIMUM_WAIT_EVENTS = 64 ∧ w.g_event_list.size ≤ 64 ∧ w.g_socket_list.size ≤ 64 := by
  have h1 := hw.inv.size_le
  have h2 := hw.inv.size_eq
  have h3 : WSA_MAXIMUM_WAIT_EVENTS = 64 := rfl
  omega

/-- Witness for C2: the state with one admitted connection. -/
theorem registry_size_le_max_witness :
    Reachable 512 oneClient ∧ oneClient.g_event_list.size = 1 ∧
      (WSA_MAXIMUM_WAIT_EVENTS = 64 ∧ oneClient.g_event_list.size ≤ 64 ∧
        oneClient.g_socket_list.size ≤ 64) :=
  have hr : Reachable 512 oneClient :=
    Reachable.on_accept 7 ⟨100, 0⟩ (Reachable.start []) (by decide) (by decide)
  ⟨hr, by decide, registry_size_le_max 512 oneClient hr⟩

/-- C3: `on_accept` on a registry that already holds 64 entries returns
`false`, leaves both maps unchanged, ends by closing the event handle it
created (when `WSACreateEvent` produced one) and issues no `closesocket`,
so the set of open accepted sockets is what it was. -/
theorem on_accept_rejects_at_capacity (sockfd : SOCKET) (os : AcceptOracle) (w : World)
    (hfull : w.g_event_list.size = 64) :
    (on_accept sockfd os w).1 = false ∧
      (on_accept sockfd os w).2.g_event_list = w.g_event_list ∧
      (on_accept sockfd os w).2.g_socket_list = w.g_socket_list ∧
      (∃ issued : List OsCall,
        (on_accept sockfd os w).2.trace = w.trace ++ issued ∧
        (os.hEvent ≠ WSA_INVALID_EVENT →
          issued.getLast? = some (OsCall.WSACloseEvent os.hEvent)) ∧
        ∀ s, OsCall.closesocket s ∉ issued) ∧
      liveSockets (on_accept sockfd os w).2.trace = liveSockets w.trace := by
  have hfull2 : w.g_event_list.size = WSA_MAXIMUM_WAIT_EVENTS := hfull
  unfold on_accept
  by_cases h1 : os.hEvent = WSA_INVALID_EVENT
  · simp only [h1, if_true, World.call]
    refine ⟨trivial, trivial, trivial, ⟨[OsCall.WSACreateEvent WSA_INVALID_EVENT], rfl, ?_, ?_⟩, ?_⟩
    · intro h; exact absurd rfl h
    · intro s hs; simp at hs
    · rw [liveSockets_append]; rfl
  · by_cases h2 : os.selectRet = SOCKET_ERROR
    · simp only [h1, h2, if_true, if_false, World.call]
      refine ⟨trivial, trivial, trivial, ⟨[OsCall.WSACreateEvent os.hEvent,
        OsCall.WSAEventSelect sockfd os.hEvent (FD_READ ||| FD_WRITE ||| FD_CLOSE),
        OsCall.WSACloseEvent os.hEvent], by simp, ?_, ?_⟩, ?_⟩
      · intro _; rfl
      · intro s hs; simp at hs
      · rw [liveSockets_append, liveSockets_append, liveSockets_append]; rfl
    · simp only [h1, h2, if_false, World.call, hfull2, if_true]
      refine ⟨trivial, trivial, trivial, ⟨[OsCall.WSACreateEvent os.hEvent,
        OsCall.WSAEventSelect sockfd os.hEvent (FD_READ ||| FD_WRITE ||| FD_CLOSE),
        OsCall.WSAEventSelect sockfd os.hEvent 0,
        OsCall.WSACloseEvent os.hEvent], by simp, ?_, ?_⟩, ?_⟩
      · intro _; rfl
      · intro s hs; simp at hs
      · rw [liveSockets_append, liveSockets_append, liveSockets_append, liveSockets_append]
        rfl

/-- Witness for C3: socket 65 offered to the full registry of sockets 1..64. -/
theorem on_accept_rejects_at_capacity_witness :
    fullHouse.g_event_list.size = 64 ∧
      (on_accept 65 ⟨2000, 0⟩ fullHouse).1 = false ∧
      (on_accept 65 ⟨2000, 0⟩ fullHouse).2.g_event_list = fullHouse.g_event_list ∧
      (on_accept 65 ⟨2000, 0⟩ fullHouse).2.g_socket_list = fullHouse.g_socket_list :=
  have h := on_accept_rejects_at_capacity 65 ⟨2000, 0⟩ fullHouse (by decide)
  ⟨by decide, h.1, h.2.1, h.2.2.1⟩

/-- C4, as amended: when the null handle is not a key of `g_socket_list` (as in
every reachable state), a second `on_close` of the same socket leaves both maps,
the open sockets and the open event handles as the first call left them; it has no
membership check and issues `WSAEventSelect(sockfd, NULL, 0)`,
`WSACloseEvent(NULL)` and `closesocket(sockfd)` once more. -/
theorem on_close_twice (sockfd : SOCKET) (e1 e2 : Int) (w : World)
    (hnull : w.g_socket_list.find NULL = none) :
    (on_close sockfd e2 (on_close sockfd e1 w).2).2.g_event_list =
        (on_close sockfd e1 w).2.g_event_list ∧
      (on_close sockfd e2 (on_close sockfd e1 w).2).2.g_socket_list =
        (on_close sockfd e1 w).2.g_socket_list ∧
      (on_close sockfd e2 (on_close sockfd e1 w).2).2.trace =
        (on_close sockfd e1 w).2.trace ++
          [.WSAEventSelect sockfd NULL 0, .WSACloseEvent NULL, .closesocket sockfd] ∧
      liveSockets (on_close sockfd e2 (on_close sockfd e1 w).2).2.trace =
        liveSockets (on_close sockfd e1 w).2.trace ∧
      liveEvents (on_close sockfd e2 (on_close sockfd e1 w).2).2.trace =
        liveEvents (on_close sockfd e1 w).2.trace := by
  have hE : (w.g_event_list.erase sockfd).find sockfd = none := by
    rw [StdMap.find_erase]; simp
  have hS : (w.g_socket_list.erase ((w.g_event_list.find sockfd).getD NULL)).find NULL = none := by
    rw [StdMap.find_erase]; split_ifs <;> simp [hnull]
  have split3 : ∀ (t : List OsCall) (a b c : OsCall), t ++ [a, b, c] = ((t ++ [a]) ++ [b]) ++ [c] := by
    intro t a b c; simp
  rw [on_close_eq sockfd e2, on_close_eq sockfd e1]
  simp only [hE, Option.getD_none]
  refine ⟨StdMap.erase_absent hE, StdMap.erase_absent hS, trivial, ?_, ?_⟩
  · rw [split3 (w.trace ++ _), liveSockets_append, liveSockets_append, liveSockets_append,
      split3 w.trace, liveSockets_append, liveSockets_append, liveSockets_append]
    simp [stepSockets, List.filter_filter]
  · rw [split3 (w.trace ++ _), liveEvents_append, liveEvents_append, liveEvents_append]
    simp only [stepEvents]
    apply List.filter_eq_self.2
    intro x hx
    have : x ≠ NULL := fun e => null_not_live _ (e ▸ hx)
    simpa using this

/-- Witness for C4 as amended: closing socket 7 of `oneClient` twice. -/
theorem on_close_twice_witness :
    oneClient.g_socket_list.find NULL = none ∧
      (on_close 7 0 (on_close 7 0 oneClient).2).2.g_event_list =
        (on_close 7 0 oneClient).2.g_event_list ∧
      (on_close 7 0 (on_close 7 0 oneClient).2).2.g_socket_list =
        (on_close 7 0 oneClient).2.g_socket_list :=
  have h := on_close_twice 7 0 0 oneClient (by decide)
  ⟨by decide, h.1, h.2.1⟩

/-- C4 as stated fails: the second `on_close` of socket 7 does not "act on
nothing".  The state after two calls differs from the state after one, and the
second call passes the null handle to `WSACloseEvent` and closes descriptor 7 a
second time. -/
theorem on_close_twice_counterexample :
    (on_close 7 0 (on_close 7 0 oneClient).2).2 ≠ (on_close 7 0 oneClient).2 ∧
      OsCall.WSACloseEvent NULL ∉ (on_close 7 0 oneClient).2.trace ∧
      OsCall.WSACloseEvent NULL ∈ (on_close 7 0 (on_close 7 0 oneClient).2).2.trace ∧
      ((on_close 7 0 oneClient).2.trace.filter (fun c => c = OsCall.closesocket 7)).length = 1 ∧
      ((on_close 7 0 (on_close 7 0 oneClient).2).2.trace.filter
        (fun c => c = OsCall.closesocket 7)).length = 2 := by
  decide

/-- C5 fails on the code: socket 7 is registered, `recv` returns `SOCKET_ERROR`
(or zero bytes) and the following `send` returns `SOCKET_ERROR`; `on_recv`
returns `true` without calling `on_close`, and socket 7 is still in both maps. -/
theorem on_recv_failed_receive_keeps_socket :
    (on_recv 512 ⟨[], .error, SOCKET_ERROR⟩ 7 0 oneClient).1 = true ∧
      (on_recv 512 ⟨[], .error, SOCKET_ERROR⟩ 7 0 oneClient).2.g_event_list.find 7 = some 100 ∧
      (on_recv 512 ⟨[], .error, SOCKET_ERROR⟩ 7 0 oneClient).2.g_socket_list.find 100 = some 7 ∧
      OsCall.closesocket 7 ∉ (on_recv 512 ⟨[], .error, SOCKET_ERROR⟩ 7 0 oneClient).2.trace ∧
      (on_recv 512 ⟨[], .data [], SOCKET_ERROR⟩ 7 0 oneClient).2.g_event_list.find 7 = some 100 ∧
      (on_recv 512 ⟨[], .data [], SOCKET_ERROR⟩ 7 0 oneClient).2.g_socket_list.find 100 = some 7 ∧
      OsCall.closesocket 7 ∉ (on_recv 512 ⟨[], .data [], SOCKET_ERROR⟩ 7 0 oneClient).2.trace := by
  decide

/-- C6 fails on the code: socket 7 is registered, `recv` delivers the four bytes
of "ping" and the echo `send` returns `SOCKET_ERROR`; `on_recv` returns `true`
without calling `on_close`, and socket 7 is still in both maps. -/
theorem on_recv_failed_send_keeps_socket :
    (on_recv 512 ⟨[], .data [112, 105, 110, 103], SOCKET_ERROR⟩ 7 0 oneClient).1 = true ∧
      (on_recv 512 ⟨[], .data [112, 105, 110, 103], SOCKET_ERROR⟩ 7 0
        oneClient).2.g_event_list.find 7 = some 100 ∧
      (on_recv 512 ⟨[], .data [112, 105, 110, 103], SOCKET_ERROR⟩ 7 0
        oneClient).2.g_socket_list.find 100 = some 7 ∧
      OsCall.closesocket 7 ∉
        (on_recv 512 ⟨[], .data [112, 105, 110, 103], SOCKET_ERROR⟩ 7 0 oneClient).2.trace := by
  decide

/-- C7: when `recv` delivers `n` bytes with `1 ≤ n ≤ kDefaultBufferSize`,
`on_recv` hands exactly those bytes, in order, to one `send` on the same socket
and to no other; and when that `send` reports `n` bytes, `on_recv` returns
`true`, both maps are unchanged and nothing but the `recv` and the `send` was
issued (no close). -/
theorem on_recv_echoes (k : Nat) (os : RecvOracle) (sockfd : SOCKET) (error : Int)
    (w : World) (data : List Byte)
    (hrecv : os.recv = .data data) (hpos : 1 ≤ data.length) (hfit : data.length ≤ k) :
    sends (on_recv k os sockfd error w).2.trace = sends w.trace ++ [(sockfd, data)] ∧
      (os.sendRet = (data.length : Int) →
        (on_recv k os sockfd error w).1 = true ∧
        (on_recv k os sockfd error w).2.g_event_list = w.g_event_list ∧
        (on_recv k os sockfd error w).2.g_socket_list = w.g_socket_list ∧
        (on_recv k os sockfd error w).2.trace =
          w.trace ++ [.recv sockfd k,
            .send sockfd (data ++ os.stack.drop data.length) data.length]) := by
  have hbuf : os.recv.fill os.stack k = data ++ os.stack.drop data.length := by
    rw [hrecv]
    simp [RecvResult.fill, List.take_of_length_le hfit]
  have hret : os.recv.ret = (data.length : Int) := by rw [hrecv]; rfl
  have hpay : sentPayload (.send sockfd (data ++ os.stack.drop data.length) data.length)
      = some (sockfd, data) := by
    simp [sentPayload]
  unfold on_recv
  simp only [recv_check_false, if_false, hbuf, hret]
  constructor
  · split_ifs with h0
    · rw [on_close_eq]
      simp [World.call, sends, List.filterMap_append, sentPayload]
    · simp [World.call, sends, List.filterMap_append, sentPayload]
  · intro hsent
    have h0 : ¬ os.sendRet = 0 := by
      rw [hsent]; omega
    simp [h0, World.call]

/-- Witness for C7: a payload of exactly the buffer size (`kDefaultBufferSize = 4`,
the bytes of "ping") is echoed and the socket stays registered. -/
theorem on_recv_echoes_witness :
    sends (on_recv 4 ⟨[0, 0, 0, 0], .data [112, 105, 110, 103], 4⟩ 7 0 oneClient).2.trace
        = sends oneClient.trace ++ [(7, [112, 105, 110, 103])] ∧
      (on_recv 4 ⟨[0, 0, 0, 0], .data [112, 105, 110, 103], 4⟩ 7 0 oneClient).1 = true ∧
      (on_recv 4 ⟨[0, 0, 0, 0], .data [112, 105, 110, 103], 4⟩ 7 0 oneClient).2.g_event_list
        = oneClient.g_event_list :=
  have h := on_recv_echoes 4 ⟨[0, 0, 0, 0], .data [112, 105, 110, 103], 4⟩ 7 0 oneClient
    [112, 105, 110, 103] rfl (by decide) (by decide)
  ⟨h.1, (h.2 rfl).1, (h.2 rfl).2.1⟩

/-- C8: for every condition bitset, `handle_event` invokes exactly the handlers
whose flag is set among `FD_READ`, `FD_WRITE`, `FD_CLOSE`, once each, in the
order `on_recv`, `on_write`, `on_close`, each with its own error code; other
bits invoke nothing.  This holds whatever the handlers do; with handlers that
only record their invocation the record is exactly that list, and the
program's `handle_event` is the instance at its own handlers. -/
theorem handle_event_dispatch {σ : Type} (H : Handlers σ) (sockfd : SOCKET)
    (ev : WSANETWORKEVENTS) (st : σ) (k : Nat) (os : RecvOracle) (w : World) :
    handle_event_with H sockfd ev st =
        (1, ([HandlerId.on_recv, .on_write, .on_close].filter
              (fun id => ev.lNetworkEvents &&& id.flag ≠ 0)).foldl
            (fun st id => H.invoke id sockfd (ev.iErrorCode.getD id.bit 0) st) st) ∧
      (handle_event_with recorder sockfd ev []).2 =
        ([HandlerId.on_recv, .on_write, .on_close].filter
              (fun id => ev.lNetworkEvents &&& id.flag ≠ 0)).map
            (fun id => (id, sockfd, ev.iErrorCode.getD id.bit 0)) ∧
      handle_event k os sockfd ev w =
        (1, ([HandlerId.on_recv, .on_write, .on_close].filter
              (fun id => ev.lNetworkEvents &&& id.flag ≠ 0)).foldl
            (fun st id => (handlers k os).invoke id sockfd (ev.iErrorCode.getD id.bit 0) st)
            w) := by
  have gen : ∀ {τ : Type} (G : Handlers τ) (x : τ), handle_event_with G sockfd ev x =
      (1, ([HandlerId.on_recv, .on_write, .on_close].filter
            (fun id => ev.lNetworkEvents &&& id.flag ≠ 0)).foldl
          (fun st id => G.invoke id sockfd (ev.iErrorCode.getD id.bit 0) st) x) := by
    intro τ G x
    unfold handle_event_with
    by_cases hr : ev.lNetworkEvents &&& FD_READ = 0 <;>
    by_cases hw : ev.lNetworkEvents &&& FD_WRITE = 0 <;>
    by_cases hc : ev.lNetworkEvents &&& FD_CLOSE = 0 <;>
    simp [List.filter, HandlerId.flag, HandlerId.bit, Handlers.invoke, hr, hw, hc]
  refine ⟨gen H st, ?_, gen (handlers k os) w⟩
  rw [gen recorder []]
  by_cases hr : ev.lNetworkEvents &&& FD_READ = 0 <;>
  by_cases hw : ev.lNetworkEvents &&& FD_WRITE = 0 <;>
  by_cases hc : ev.lNetworkEvents &&& FD_CLOSE = 0 <;>
  simp [List.filter, HandlerId.flag, HandlerId.bit, Handlers.invoke, recorder, hr, hw, hc]

/-- C9: on a registry with fewer than 64 entries, for a socket that is not
registered, when `WSACreateEvent` and `WSAEventSelect` succeed (the new handle
being one that is not already a key of `g_socket_list`), `on_accept` returns
`true` and registers the pair, and a following `on_close` of the same socket
leaves both maps exactly as they were before the admission. -/
theorem accept_then_close_restores (sockfd : SOCKET) (os : AcceptOracle) (error : Int)
    (w : World)
    (hsize : w.g_event_list.size < 64)
    (hreg : w.g_event_list.find sockfd = none)
    (hcreate : os.hEvent ≠ WSA_INVALID_EVENT)
    (hselect : os.selectRet ≠ SOCKET_ERROR)
    (hfresh : w.g_socket_list.find os.hEvent = none) :
    (on_accept sockfd os w).1 = true ∧
      (on_accept sockfd os w).2.g_event_list.find sockfd = some os.hEvent ∧
      (on_accept sockfd os w).2.g_socket_list.find os.hEvent = some sockfd ∧
      (on_accept sockfd os w).2.g_event_list.size = w.g_event_list.size + 1 ∧
      (on_close sockfd error (on_accept sockfd os w).2).2.g_event_list = w.g_event_list ∧
      (on_close sockfd error (on_accept sockfd os w).2).2.g_socket_list = w.g_socket_list ∧
      (on_close sockfd error (on_accept sockfd os w).2).2.g_event_list.size
        = w.g_event_list.size := by
  have hne : ¬ w.g_event_list.size = WSA_MAXIMUM_WAIT_EVENTS := by
    show ¬ w.g_event_list.size = 64
    omega
  have hacc : on_accept sockfd os w = (true,
      { g_event_list := w.g_event_list.assign sockfd os.hEvent
        g_socket_list := w.g_socket_list.assign os.hEvent sockfd
        trace := w.trace ++ [.WSACreateEvent os.hEvent,
          .WSAEventSelect sockfd os.hEvent (FD_READ ||| FD_WRITE ||| FD_CLOSE)] }) := by
    unfold on_accept
    simp [hcreate, hselect, World.call, hne]
  have hfind : (w.g_event_list.assign sockfd os.hEvent).find sockfd = some os.hEvent := by
    rw [StdMap.find_assign]; simp
  rw [hacc, on_close_eq]
  simp only [hfind, Option.getD_some]
  refine ⟨trivial, trivial, ?_, ?_, StdMap.erase_assign hreg _, StdMap.erase_assign hfresh _, ?_⟩
  · rw [StdMap.find_assign]; simp
  · rw [StdMap.size_assign]; simp [hreg]
  · rw [StdMap.erase_assign hreg]

/-- Witness for C9: socket 9 admitted next to socket 7, then closed. -/
theorem accept_then_close_restores_witness :
    oneClient.g_event_list.size < 64 ∧
      (on_accept 9 ⟨101, 0⟩ oneClient).1 = true ∧
      (on_close 9 0 (on_accept 9 ⟨101, 0⟩ oneClient).2).2.g_event_list = oneClient.g_event_list ∧
      (on_close 9 0 (on_accept 9 ⟨101, 0⟩ oneClient).2).2.g_socket_list
        = oneClient.g_socket_list :=
  have h := accept_then_close_restores 9 ⟨101, 0⟩ 0 oneClient
    (by decide) (by decide) (by decide) (by decide) (by decide)
  ⟨by decide, h.1, h.2.2.2.2.1, h.2.2.2.2.2.1⟩

/-- C10: `event_loop` returns `false` exactly when it performs the wait (the
registry is not empty) and the wait returns `WSA_WAIT_FAILED`.  On an empty
registry, on a timeout, and on a signalled handle that `g_socket_list` does not
hold it returns `true` with both maps unchanged.  When `WSAEnumNetworkEvents`
fails for the socket `sockfd` found for the signalled handle, it returns `true`
and the state is the one `on_close(sockfd, 0)` produces: `sockfd` is erased from
`g_event_list`, its handle from `g_socket_list`, every other entry stays. -/
theorem event_loop_failure_policy (k : Nat) (os : LoopOracle) (w : World) :
    ((event_loop k os w).1 = false ↔
        (w.g_event_list.isEmpty = false ∧ os.nready = WSA_WAIT_FAILED)) ∧
      (w.g_event_list.isEmpty = true →
        event_loop k os w = (true, w.call (.Sleep 100))) ∧
      (os.nready = WSA_WAIT_TIMEOUT →
        (event_loop k os w).1 = true ∧
        (event_loop k os w).2.g_event_list = w.g_event_list ∧
        (event_loop k os w).2.g_socket_list = w.g_socket_list) ∧
      (os.nready < WSA_MAXIMUM_WAIT_EVENTS →
        w.g_socket_list.find
          ((make_event_array (List.replicate WSA_MAXIMUM_WAIT_EVENTS 0)
            WSA_MAXIMUM_WAIT_EVENTS w).1.getD os.nready 0) = none →
        (event_loop k os w).1 = true ∧
        (event_loop k os w).2.g_event_list = w.g_event_list ∧
        (event_loop k os w).2.g_socket_list = w.g_socket_list) ∧
      (∀ sockfd : SOCKET,
        w.g_event_list.isEmpty = false →
        os.nready < WSA_MAXIMUM_WAIT_EVENTS →
        w.g_socket_list.find
          ((make_event_array (List.replicate WSA_MAXIMUM_WAIT_EVENTS 0)
            WSA_MAXIMUM_WAIT_EVENTS w).1.getD os.nready 0) = some sockfd →
        os.enumRet = SOCKET_ERROR →
        (event_loop k os w).1 = true ∧
        (event_loop k os w).2 =
          (on_close sockfd 0
            ((w.call (.WSAWaitForMultipleEvents
                (make_event_array (List.replicate WSA_MAXIMUM_WAIT_EVENTS 0)
                  WSA_MAXIMUM_WAIT_EVENTS w).2
                (make_event_array (List.replicate WSA_MAXIMUM_WAIT_EVENTS 0)
                  WSA_MAXIMUM_WAIT_EVENTS w).1)).call
              (.WSAEnumNetworkEvents sockfd
                ((make_event_array (List.replicate WSA_MAXIMUM_WAIT_EVENTS 0)
                  WSA_MAXIMUM_WAIT_EVENTS w).1.getD os.nready 0)))).2 ∧
        (event_loop k os w).2.g_event_list = w.g_event_list.erase sockfd ∧
        (event_loop k os w).2.g_event_list.find sockfd = none ∧
        (∀ s, s ≠ sockfd →
          (event_loop k os w).2.g_event_list.find s = w.g_event_list.find s) ∧
        (Consistent w →
          (event_loop k os w).2.g_socket_list = w.g_socket_list.erase
            ((make_event_array (List.replicate WSA_MAXIMUM_WAIT_EVENTS 0)
              WSA_MAXIMUM_WAIT_EVENTS w).1.getD os.nready 0) ∧
          (event_loop k os w).2.g_socket_list.find
            ((make_event_array (List.replicate WSA_MAXIMUM_WAIT_EVENTS 0)
              WSA_MAXIMUM_WAIT_EVENTS w).1.getD os.nready 0) = none ∧
          ∀ h, h ≠ (make_event_array (List.replicate WSA_MAXIMUM_WAIT_EVENTS 0)
              WSA_MAXIMUM_WAIT_EVENTS w).1.getD os.nready 0 →
            (event_loop k os w).2.g_socket_list.find h = w.g_socket_list.find h)) := by
  refine ⟨?_, ?_, ?_, ?_, ?_⟩
  · unfold event_loop
    dsimp only
    by_cases he : w.g_event_list.isEmpty = true
    · simp [he]
    · have he2 : w.g_event_list.isEmpty = false := by simpa using he
      by_cases hf : os.nready = WSA_WAIT_FAILED
      · simp [he2, hf]
      · simp only [he2, hf, if_false, and_false, Bool.false_eq_true]
        split_ifs <;> try split
        all_goals simp
  · intro he
    unfold event_loop
    simp [he]
  · intro ht
    have hne : ¬ WSA_WAIT_TIMEOUT = WSA_WAIT_FAILED := by decide
    unfold event_loop
    dsimp only
    by_cases he : w.g_event_list.isEmpty = true
    · simp only [he, if_true]
      refine ⟨?_, ?_, ?_⟩ <;> trivial
    · have he2 : w.g_event_list.isEmpty = false := by simpa using he
      simp only [he2, ht, hne, if_false, if_true, Bool.false_eq_true]
      refine ⟨?_, ?_, ?_⟩ <;> trivial
  · intro hlt hstale
    by_cases he : w.g_event_list.isEmpty = true
    · unfold event_loop
      simp only [he, if_true]
      refine ⟨?_, ?_, ?_⟩ <;> trivial
    · have he2 : w.g_event_list.isEmpty = false := by simpa using he
      rw [event_loop_signalled k os w he2 hlt, hstale]
      exact ⟨rfl, rfl, rfl⟩
  · intro sockfd he hlt hfound henum
    have hval := event_loop_signalled k os w he hlt
    rw [hfound] at hval
    simp only [henum, if_true] at hval
    rw [hval]
    refine ⟨rfl, rfl, ?_, ?_, ?_, ?_⟩
    · rw [on_close_eq]; rfl
    · rw [on_close_eq]
      show (w.g_event_list.erase sockfd).find sockfd = none
      rw [StdMap.find_erase]; simp
    · intro s hs
      rw [on_close_eq]
      show (w.g_event_list.erase sockfd).find s = w.g_event_list.find s
      rw [StdMap.find_erase]; simp [hs]
    · intro hcons
      have hE := (hcons sockfd _).2 hfound
      have hS : (on_close sockfd 0
          ((w.call (.WSAWaitForMultipleEvents
              (make_event_array (List.replicate WSA_MAXIMUM_WAIT_EVENTS 0)
                WSA_MAXIMUM_WAIT_EVENTS w).2
              (make_event_array (List.replicate WSA_MAXIMUM_WAIT_EVENTS 0)
                WSA_MAXIMUM_WAIT_EVENTS w).1)).call
            (.WSAEnumNetworkEvents sockfd
              ((make_event_array (List.replicate WSA_MAXIMUM_WAIT_EVENTS 0)
                WSA_MAXIMUM_WAIT_EVENTS w).1.getD os.nready 0)))).2.g_socket_list =
          w.g_socket_list.erase
            ((make_event_array (List.replicate WSA_MAXIMUM_WAIT_EVENTS 0)
              WSA_MAXIMUM_WAIT_EVENTS w).1.getD os.nready 0) := by
        rw [on_close_eq]
        show w.g_socket_list.erase ((w.g_event_list.find sockfd).getD NULL) = _
        rw [hE]; rfl
      refine ⟨hS, ?_, ?_⟩
      · show (on_close sockfd 0 _).2.g_socket_list.find _ = none
        rw [hS, StdMap.find_erase, if_pos rfl]
      · intro h hh
        show (on_close sockfd 0 _).2.g_socket_list.find h = _
        rw [hS, StdMap.find_erase, if_neg hh]

/-- Witness for C10: with socket 7 registered, a wait that fails is fatal, and a
failed `WSAEnumNetworkEvents` on the signalled socket 7 is not: the loop
returns `true` and socket 7 has left `g_event_list`. -/
theorem event_loop_failure_policy_witness :
    (event_loop 512 ⟨WSA_WAIT_FAILED, 0, ⟨0, []⟩, ⟨[], .error, 0⟩⟩ oneClient).1 = false ∧
      oneClient.g_event_list.find 7 = some 100 ∧
      (event_loop 512 ⟨0, SOCKET_ERROR, ⟨0, []⟩, ⟨[], .error, 0⟩⟩ oneClient).1 = true ∧
      (event_loop 512 ⟨0, SOCKET_ERROR, ⟨0, []⟩, ⟨[], .error, 0⟩⟩
        oneClient).2.g_event_list.find 7 = none :=
  have hfatal := (event_loop_failure_policy 512
    ⟨WSA_WAIT_FAILED, 0, ⟨0, []⟩, ⟨[], .error, 0⟩⟩ oneClient).1.2 ⟨by decide, rfl⟩
  have hquery := (event_loop_failure_policy 512
    ⟨0, SOCKET_ERROR, ⟨0, []⟩, ⟨[], .error, 0⟩⟩ oneClient).2.2.2.2 7
      (by decide) (by decide) (by decide) rfl
  ⟨hfatal, by decide, hquery.1, hquery.2.2.2.1⟩

end AsyncEvent
